import Mathlib

/-!
# Verification of the wool-witch client pricing / cart / caching core

Shallow embedding of the client-side pricing calculator, cart store,
cart validator and data-cache layer of the wool-witch storefront,
together with theorems settling the specification claims.

Monetary values are embedded as rationals (the source stores decimal
amounts in JS numbers; none of the verified claims concern binary
floating-point rounding).  JS `Map`s and objects are embedded as
association lists, `undefined`/`null` as `Option`.
-/

namespace WoolWitch

/-! ## Data model (src/types: usage in orderService / CartContext / dataService) -/

/-- One customization selection on a cart line: `{ propertyId, value }`. -/
structure CustomPropertySelection where
  propertyId : String
  value : String
  deriving DecidableEq, Repr

/-- The `type` tag of a custom property: dropdown | text | textarea | number. -/
inductive PropertyType where
  | dropdown
  | text
  | textarea
  | number
  deriving DecidableEq, Repr

/-- One custom-property definition.  Only dropdown properties carry
`options` and an optional `optionPrices` map (label → override price);
the map is embedded as an association list with unique keys. -/
structure CustomProperty where
  id : String
  type : PropertyType
  options : List String := []
  optionPrices : Option (List (String × ℚ)) := none
  deriving DecidableEq, Repr

/-- `CustomPropertiesConfig`: ordered list of custom-property definitions. -/
structure CustomPropertiesConfig where
  properties : List CustomProperty
  deriving DecidableEq, Repr

/-- Product snapshot, restricted to the fields the verified core reads. -/
structure Product where
  id : String
  name : String := ""
  price : ℚ
  price_max : Option ℚ := none
  delivery_charge : Option ℚ := none
  is_available : Option Bool := some true
  custom_properties : Option CustomPropertiesConfig := none
  deriving DecidableEq, Repr

/-- A cart line item (`CartItem` in CartContext.tsx). -/
structure CartItem where
  id : String
  product : Product
  quantity : ℤ
  customSelections : Option (List CustomPropertySelection) := none
  deriving DecidableEq, Repr

/-! ## Pricing calculator (orderService: getEffectivePrice, getProductPriceRange) -/

/-- The loop body of `getEffectivePrice`: walk the line's selections in
their stored order; for each, look the property up by id in the config;
if it is a dropdown whose `optionPrices` defines the selected value,
return that override price; otherwise continue. -/
def findSelectionOverride (config : CustomPropertiesConfig) :
    List CustomPropertySelection → Option ℚ
  | [] => none
  | sel :: rest =>
    match config.properties.find? (fun p => p.id == sel.propertyId) with
    | some prop =>
      if prop.type == PropertyType.dropdown then
        match prop.optionPrices with
        | some prices =>
          match prices.lookup sel.value with
          | some price => some price
          | none => findSelectionOverride config rest
        | none => findSelectionOverride config rest
      else findSelectionOverride config rest
    | none => findSelectionOverride config rest

/-- `getEffectivePrice(item)` from orderService: base price when there are
no selections or no config; otherwise the first selection-order override,
falling back to the base price. -/
def getEffectivePrice (item : CartItem) : ℚ :=
  match item.customSelections with
  | none => item.product.price
  | some selections =>
    if selections.isEmpty then item.product.price
    else
      match item.product.custom_properties with
      | none => item.product.price
      | some config =>
        match findSelectionOverride config selections with
        | some price => price
        | none => item.product.price

/-- The `allOptionPrices` accumulation loop of `getProductPriceRange`:
every override price across every dropdown property, in property order
(`Object.values` of each `optionPrices` map). -/
def collectOptionPrices (config : CustomPropertiesConfig) : List ℚ :=
  config.properties.foldl
    (fun acc p =>
      if p.type == PropertyType.dropdown then
        match p.optionPrices with
        | some prices => if prices.isEmpty then acc else acc ++ prices.map Prod.snd
        | none => acc
      else acc)
    []

/-- `getProductPriceRange(customProperties, basePrice, basePriceMax)` from
orderService: the fallback `{basePrice, basePriceMax ?? basePrice}` when
there is no config or no override price anywhere; otherwise
`{Math.min(...allOptionPrices), Math.max(...allOptionPrices)}`. -/
def getProductPriceRange (customProperties : Option CustomPropertiesConfig)
    (basePrice : ℚ) (basePriceMax : Option ℚ) : ℚ × ℚ :=
  match customProperties with
  | none => (basePrice, basePriceMax.getD basePrice)
  | some config =>
    match collectOptionPrices config with
    | [] => (basePrice, basePriceMax.getD basePrice)
    | p :: ps => (ps.foldl min p, ps.foldl max p)

/-- `calculateSubtotal`. -/
def calculateSubtotal (cartItems : List CartItem) : ℚ :=
  cartItems.foldl (fun total item => total + getEffectivePrice item * item.quantity) 0

/-- `calculateDeliveryTotal` (missing delivery charge counts as zero). -/
def calculateDeliveryTotal (cartItems : List CartItem) : ℚ :=
  cartItems.foldl (fun total item => total + (item.product.delivery_charge.getD 0) * item.quantity) 0

/-- `calculateTotal`. -/
def calculateTotal (cartItems : List CartItem) : ℚ :=
  calculateSubtotal cartItems + calculateDeliveryTotal cartItems

/-! Spec-side pricing definitions, for comparison with the source.  The
claim about `getEffectivePrice` describes an iteration over the
*property definitions* in config order; the source iterates the line's
*selections*.  Both readings are written out below so the divergence can
be proved. -/

/-- Spec reading of the claim: iterate the config's properties in their
defined order; the first dropdown property whose corresponding selection's
chosen value has a defined override price wins. -/
def findDefinitionOverride (selections : List CustomPropertySelection) :
    List CustomProperty → Option ℚ
  | [] => none
  | prop :: rest =>
    if prop.type == PropertyType.dropdown then
      match prop.optionPrices with
      | some prices =>
        match selections.find? (fun s => s.propertyId == prop.id) with
        | some sel =>
          match prices.lookup sel.value with
          | some price => some price
          | none => findDefinitionOverride selections rest
        | none => findDefinitionOverride selections rest
      | none => findDefinitionOverride selections rest
    else findDefinitionOverride selections rest

/-- Effective price as the claim words it (definition-order iteration). -/
def effectivePriceDefinitionOrder (item : CartItem) : ℚ :=
  match item.customSelections with
  | none => item.product.price
  | some selections =>
    if selections.isEmpty then item.product.price
    else
      match item.product.custom_properties with
      | none => item.product.price
      | some config =>
        match findDefinitionOverride selections config.properties with
        | some price => price
        | none => item.product.price

/-- The override price one single selection contributes: its property,
looked up by id, must be a dropdown whose `optionPrices` defines the
selected value. -/
def selectionOverride (config : CustomPropertiesConfig)
    (sel : CustomPropertySelection) : Option ℚ :=
  match config.properties.find? (fun p => p.id == sel.propertyId) with
  | some prop =>
    if prop.type == PropertyType.dropdown then
      prop.optionPrices.bind (fun prices => prices.lookup sel.value)
    else none
  | none => none

/-- Effective price as the amended claim words it: the first override in
*selection* order, written with `filterMap`/`head?` rather than the
source's explicit loop. -/
def effectivePriceSelectionOrder (item : CartItem) : ℚ :=
  match item.customSelections with
  | none => item.product.price
  | some selections =>
    if selections.isEmpty then item.product.price
    else
      match item.product.custom_properties with
      | none => item.product.price
      | some config =>
        ((selections.filterMap (selectionOverride config)).head?).getD item.product.price

/-! ## Cart store (CartContext.tsx) -/

/-- `!customSelections || customSelections.length === 0`. -/
def noSelections : Option (List CustomPropertySelection) → Bool
  | none => true
  | some l => l.isEmpty

/-- The selection-comparison predicate inside `addItem`'s `find` callback:
empty-vs-empty matches; otherwise the stored and incoming lists must have
equal length and every incoming selection must occur (propertyId and
value both equal) among the stored ones. -/
def selectionsCompatible (itemSels newSels : Option (List CustomPropertySelection)) : Bool :=
  if noSelections newSels then noSelections itemSels
  else
    match itemSels, newSels with
    | some is, some ns =>
      is.length == ns.length &&
        ns.all (fun sel => is.any (fun s => s.propertyId == sel.propertyId && s.value == sel.value))
    | _, _ => false

/-- The whole `find` predicate of `addItem`: same product id and
compatible selections. -/
def addItemMatches (product : Product) (newSels : Option (List CustomPropertySelection))
    (item : CartItem) : Bool :=
  item.product.id == product.id && selectionsCompatible item.customSelections newSels

/-- Increment the quantity of the first line satisfying `p` by `q`;
`none` when no line matches (the `existing`-found branch of `addItem`,
where `item === existing` updates exactly the found line). -/
def mergeFirst (p : CartItem → Bool) (q : ℤ) : List CartItem → Option (List CartItem)
  | [] => none
  | item :: rest =>
    if p item then some ({ item with quantity := item.quantity + q } :: rest)
    else (mergeFirst p q rest).map (item :: ·)

/-- `addItem(product, quantity, customSelections)` on the current line
list: merge into the first matching line, else append a new line with a
freshly generated id (the id generation is passed in as `newId`). -/
def addItem (items : List CartItem) (product : Product) (quantity : ℤ)
    (customSelections : Option (List CustomPropertySelection)) (newId : String) :
    List CartItem :=
  match mergeFirst (addItemMatches product customSelections) quantity items with
  | some updated => updated
  | none => items ++ [{ id := newId, product := product, quantity := quantity,
                        customSelections := customSelections }]

/-- `removeItem(cartItemIdOrProductId)`: keep the lines matching neither
the line id nor the product id. -/
def removeItem (items : List CartItem) (cartItemIdOrProductId : String) : List CartItem :=
  items.filter (fun item =>
    !(item.id == cartItemIdOrProductId) && !(item.product.id == cartItemIdOrProductId))

/-- `updateQuantity(cartItemIdOrProductId, quantity)`: non-positive
quantity removes; otherwise set the quantity on every line matching
either identifier. -/
def updateQuantity (items : List CartItem) (cartItemIdOrProductId : String)
    (quantity : ℤ) : List CartItem :=
  if quantity ≤ 0 then removeItem items cartItemIdOrProductId
  else
    items.map (fun item =>
      if item.id == cartItemIdOrProductId || item.product.id == cartItemIdOrProductId then
        { item with quantity := quantity }
      else item)

/-- `updateCustomSelections(cartItemId, customSelections)`: replace the
selections on the lines whose line id matches (no product-id fallback). -/
def updateCustomSelections (items : List CartItem) (cartItemId : String)
    (customSelections : List CustomPropertySelection) : List CartItem :=
  items.map (fun item =>
    if item.id == cartItemId then { item with customSelections := some customSelections }
    else item)

/-! ### Cart provider state and persistence (CartContext.tsx)

The durable medium is the browser's local storage under the key
`woolwitch-cart`.  For the mutation/persistence claims the stored value
is embedded as the parsed cart list it serializes (`JSON.stringify` is
injective on it), with `none` standing for an absent key — exactly the
missing-key / empty-array distinction the claims are about. -/

/-- Provider state: in-memory lines, durable value under the cart key
(`none` = key absent), and the `isLoading` flag that gates persistence. -/
structure CartState where
  items : List CartItem
  storage : Option (List CartItem)
  isLoading : Bool
  deriving DecidableEq, Repr

/-- `clearCart()`: empty the line list and remove the durable entry. -/
def clearCart (st : CartState) : CartState :=
  { st with items := [], storage := none }

/-- The persistence `useEffect`: once loading has finished, every change
of `items` re-serializes the whole list under the cart key. -/
def persistEffect (st : CartState) : CartState :=
  if st.isLoading then st else { st with storage := some st.items }

/-- `clearCart` together with the persistence effect its state change
triggers. -/
def clearCartAndPersist (st : CartState) : CartState :=
  persistEffect (clearCart st)

/-! ### Cart loading (loadAndValidateCart in CartContext.tsx)

`JSON.parse` is an external builtin; the stored text is embedded by its
parse outcome: `none` = key absent, `some (.error ())` = text on which
`JSON.parse` throws, `some (.ok j)` = text parsing to the JSON value
`j`.  Raw parsed cart entries are kept as JSON values (the source does
no per-item shape validation at this point). -/

/-- JSON values, as far as the cart loader inspects them. -/
inductive Json where
  | arr (elems : List Json)
  | obj
  | str (s : String)
  | num (n : ℤ)
  | bool (b : Bool)
  | null

/-- Outcome of loading: the in-memory items set by the loader and the
durable value left under the cart key. -/
structure LoadOutcome where
  items : List Json
  storage : Option (Except Unit Json)

/-- `loadAndValidateCart`: read the durable entry; on parse failure
remove the corrupted entry and keep the cart empty; on a non-array value
keep the cart empty (the entry is left untouched); on a non-empty array
run validation (an oracle here — `validateCartProducts` lives outside
the sources) and either keep all items or keep the valid ones and
re-write them. -/
def loadAndValidateCart (stored : Option (Except Unit Json))
    (validOk : List Json → Bool) (validItems : List Json → List Json) : LoadOutcome :=
  match stored with
  | none => { items := [], storage := none }
  | some (Except.error _) =>
    -- JSON.parse threw: the catch block removes the corrupted entry
    { items := [], storage := none }
  | some (Except.ok j) =>
    let cartItems := match j with
      | Json.arr elems => elems
      | _ => []
    if cartItems.isEmpty then
      { items := [], storage := some (Except.ok j) }
    else if validOk cartItems then
      { items := cartItems, storage := some (Except.ok j) }
    else
      let kept := validItems cartItems
      { items := kept, storage := some (Except.ok (Json.arr kept)) }

/-! ## Data cache layer (src/lib/dataService.ts)

The `DataService` instance state: the in-memory `Map` cache and the
persistent tier, both embedded as association lists keyed by the cache
key, plus the current clock (`Date.now()` in milliseconds, constant
across the synchronous section of one read).  The backend collaborator
(a supabase query) is passed in as the `Except`-valued response it would
deliver, and each operation additionally reports how many backend calls
it issued. -/

/-- `CacheEntry<T> = { data, timestamp, ttl }`. -/
structure CacheEntry (α : Type) where
  data : α
  timestamp : ℤ
  ttl : ℤ
  deriving DecidableEq, Repr

/-- State of one `DataService` instance, specialized to one payload type. -/
structure DSState (α : Type) where
  cache : List (String × CacheEntry α)
  persistent : List (String × CacheEntry α)
  now : ℤ
  deriving DecidableEq, Repr

/-- substring containment (JS `String.prototype.includes`). -/
def strIncludes (s pat : String) : Bool :=
  (s.splitOn pat).length != 1

/-- `CACHE.DEFAULT_TTL` (src/constants): 5 minutes in milliseconds. -/
def DEFAULT_TTL : ℤ := 5 * 60 * 1000

/-- `cleanCache()`: drop every memory entry with `now > timestamp + ttl`. -/
def cleanCache {α : Type} (st : DSState α) : DSState α :=
  { st with cache := st.cache.filter (fun kv => !(st.now > kv.2.timestamp + kv.2.ttl)) }

/-- `persistentCache.get(key)`.  Modelled from the spec: the persistent
tier (src/lib/cacheUtils is not among the sources) is a key-value store
with independent expiry per entry, so a get returns the stored value
while it is within its ttl and nothing afterwards. -/
def persistentGet {α : Type} (st : DSState α) (key : String) : Option α :=
  match st.persistent.lookup key with
  | some entry => if st.now ≤ entry.timestamp + entry.ttl then some entry.data else none
  | none => none

/-- `setCache(key, data, ttl)`: write the memory entry stamped `now`, and
mirror it into the persistent tier only for product-list / categories
keys. -/
def setCache {α : Type} (st : DSState α) (key : String) (data : α)
    (ttl : ℤ := DEFAULT_TTL) : DSState α :=
  let entry : CacheEntry α := { data := data, timestamp := st.now, ttl := ttl }
  let withMem := { st with cache := (key, entry) :: st.cache.filter (fun kv => kv.1 != key) }
  if strIncludes key "products_list" || strIncludes key "categories" then
    { withMem with persistent := (key, entry) :: withMem.persistent.filter (fun kv => kv.1 != key) }
  else withMem

/-- `getFromCache(key)`: clean, then serve a fresh memory entry
(`now ≤ timestamp + ttl`); on a miss consult the persistent tier and
restore a hit into memory (with the default ttl, as `setCache` is called
without a ttl argument there). -/
def getFromCache {α : Type} (st : DSState α) (key : String) : Option α × DSState α :=
  let st₁ := cleanCache st
  match st₁.cache.lookup key with
  | some entry =>
    if st₁.now ≤ entry.timestamp + entry.ttl then (some entry.data, st₁)
    else
      match persistentGet st₁ key with
      | some data => (some data, setCache st₁ key data)
      | none => (none, st₁)
  | none =>
    match persistentGet st₁ key with
    | some data => (some data, setCache st₁ key data)
    | none => (none, st₁)

/-- `getStaleData(key, maxStaleAge)`: the raw memory entry as long as its
age is within `ttl + maxStaleAge`.  Defined in the source but **never
called** by any read path. -/
def getStaleData {α : Type} (st : DSState α) (key : String)
    (maxStaleAge : ℤ := 5 * 60 * 1000) : Option α :=
  match st.cache.lookup key with
  | some entry =>
    if st.now - entry.timestamp ≤ entry.ttl + maxStaleAge then some entry.data else none
  | none => none

/-- Result of one read operation: the value or error delivered to the
caller, the post-state, and the number of backend calls issued. -/
structure ReadResult (ε α : Type) where
  result : Except ε α
  state : DSState α
  backendCalls : ℕ
  deriving Repr

/-- `getProductList(options)`: the source comment reads "Simplified:
Direct call to Supabase without caching for reliability" — it always
delegates to `fetchProductListFromSource`, which performs one backend
query and propagates its error; no cache tier is consulted or written. -/
def getProductList (st : DSState (List Product)) (backend : Except String (List Product)) :
    ReadResult String (List Product) :=
  { result := backend, state := st, backendCalls := 1 }

/-- `getProductDetails(productId)`: serve `getFromCache` hits; otherwise
one synchronous backend query, cached on success, with the error
propagated on failure. -/
def getProductDetails (st : DSState Product) (productId : String)
    (backend : Except String Product) : ReadResult String Product :=
  let cacheKey := "product_detail_" ++ productId
  match getFromCache st cacheKey with
  | (some cached, st₁) => { result := Except.ok cached, state := st₁, backendCalls := 0 }
  | (none, st₁) =>
    match backend with
    | Except.ok product =>
      { result := Except.ok product, state := setCache st₁ cacheKey product, backendCalls := 1 }
    | Except.error e => { result := Except.error e, state := st₁, backendCalls := 1 }

/-- `getCategories()`: one direct backend query with no cache tier; on
success the distinct non-empty categories, sorted; the catch block turns
every failure into an empty list ("Return empty array instead of
throwing"). -/
def getCategories (st : DSState (List String)) (backend : Except String (List String)) :
    ReadResult String (List String) :=
  match backend with
  | Except.ok rows =>
    { result := Except.ok (((rows.eraseDups).filter (fun c => c ≠ "")).mergeSort (· ≤ ·)),
      state := st, backendCalls := 1 }
  | Except.error _ =>
    { result := Except.ok [], state := st, backendCalls := 1 }

/-- Two concurrent `getProductDetails` calls for the same product under
the event-loop schedule in which both reach their cache check before
either backend response arrives (each call's synchronous section runs up
to the `await`, then the responses resolve in order).  `pendingFetches`
is declared with a dedupe comment but never read or written, so neither
call consults it. -/
def twoConcurrentDetailReads (st : DSState Product) (productId : String)
    (backend : Except String Product) :
    (Except String Product × Except String Product) × DSState Product × ℕ :=
  let cacheKey := "product_detail_" ++ productId
  match getFromCache st cacheKey with
  | (some cached, st₁) =>
    -- caller A was served from cache; caller B runs alone
    let r := getProductDetails st₁ productId backend
    ((Except.ok cached, r.result), r.state, r.backendCalls)
  | (none, stA) =>
    -- caller A issued its fetch and suspended; caller B now checks the
    -- still-unwritten cache
    match getFromCache stA cacheKey with
    | (some cached, stB) =>
      ((backend, Except.ok cached),
        (match backend with
         | Except.ok product => setCache stB cacheKey product
         | Except.error _ => stB), 1)
    | (none, stB) =>
      -- both callers issued a backend fetch; each resumes with setCache
      match backend with
      | Except.ok product =>
        ((Except.ok product, Except.ok product),
          setCache (setCache stB cacheKey product) cacheKey product, 2)
      | Except.error e => ((Except.error e, Except.error e), stB, 2)

/-! ## Order service (orderService: createOrder) -/

/-- Result of `validateCartProducts`. -/
structure CartValidation where
  valid : Bool
  invalidItems : List CartItem
  deriving Repr

/-- Modelled from the spec: `validateCartProducts` (src/lib/cartDebug is
not among the sources; only its callers are).  Per §4.3, a line item is
invalid if its referenced product id no longer resolves, or resolves to
a product now flagged unavailable; the full set of invalid items is
returned.  The product lookup is the `resolve` oracle. -/
def validateCartProducts (resolve : String → Option Product)
    (items : List CartItem) : CartValidation :=
  let invalid := items.filter (fun item =>
    match resolve item.product.id with
    | none => true
    | some p => p.is_available == some false)
  { valid := invalid.isEmpty, invalidItems := invalid }

/-- The backend calls `createOrder` can issue, in order. -/
inductive BackendCall where
  | createOrderCall
  | createPaymentCall
  | getOrderByIdCall
  deriving DecidableEq, Repr

/-- The backend collaborator's responses, abstracted. -/
structure OrderEnv where
  createOrderResult : Except String String
  getOrderByIdResult : String → Option String

/-- `createOrder(orderData)`: validate the cart first and abort with the
user-facing message when validation fails; only then call the backend to
create the order, optionally record the payment (when a payment id is
present), and re-fetch the created order.  The returned list is the
trace of backend calls issued. -/
def createOrder (resolve : String → Option Product) (env : OrderEnv)
    (cartItems : List CartItem) (paymentId : Option String) :
    Except String String × List BackendCall :=
  let validation := validateCartProducts resolve cartItems
  if !validation.valid then
    (Except.error ("Some products in your cart are no longer available and need to be removed. " ++
      "Please clear your cart and re-add the items, or refresh the page to automatically clean up invalid items."),
      [])
  else
    match env.createOrderResult with
    | Except.error e => (Except.error e, [BackendCall.createOrderCall])
    | Except.ok orderId =>
      let calls := [BackendCall.createOrderCall] ++
        (match paymentId with
         | some _ => [BackendCall.createPaymentCall]
         | none => []) ++ [BackendCall.getOrderByIdCall]
      match env.getOrderByIdResult orderId with
      | some order => (Except.ok order, calls)
      | none => (Except.error "Failed to retrieve created order", calls)

/-! ## Concrete sample data for witnesses and counterexamples -/

/-- The size dropdown of the spec's examples:
`{"Small": 24.00, "Medium": 28.00, "Large": 32.00}`. -/
def sizeDropdown : CustomProperty :=
  { id := "size", type := PropertyType.dropdown,
    options := ["Small", "Medium", "Large"],
    optionPrices := some [("Small", 24), ("Medium", 28), ("Large", 32)] }

/-- A second price-bearing dropdown. -/
def colorDropdown : CustomProperty :=
  { id := "color", type := PropertyType.dropdown,
    options := ["Red"], optionPrices := some [("Red", 40)] }

/-- Config with the single size dropdown. -/
def sizeConfig : CustomPropertiesConfig := ⟨[sizeDropdown]⟩

/-- Config with two price-bearing dropdowns, size before color. -/
def twoDropdownConfig : CustomPropertiesConfig := ⟨[sizeDropdown, colorDropdown]⟩

/-- A plain product with base price 20. -/
def sampleProduct : Product := { id := "prod-1", name := "Crochet Bee", price := 20 }

/-- The same product carrying the two-dropdown config. -/
def customProduct : Product :=
  { sampleProduct with custom_properties := some twoDropdownConfig }

/-- A line selecting values in both dropdowns, color listed first. -/
def crossItem : CartItem :=
  { id := "line-1", product := customProduct, quantity := 1,
    customSelections := some [⟨"color", "Red"⟩, ⟨"size", "Large"⟩] }

/-- A single gift-wrap selection. -/
def selPA : CustomPropertySelection := ⟨"wrap", "gift"⟩

/-- A plain cart line for the frame-effect claims. -/
def sampleLine : CartItem :=
  { id := "line-9", product := sampleProduct, quantity := 2, customSelections := none }

/-! ## Claim C1 — effective price iteration order -/

/-- `findSelectionOverride` is the head of the selection-order
`filterMap` of per-selection overrides. -/
theorem findSelectionOverride_eq_head (config : CustomPropertiesConfig) :
    ∀ sels : List CustomPropertySelection,
      findSelectionOverride config sels =
        (sels.filterMap (selectionOverride config)).head?
  | [] => rfl
  | sel :: rest => by
    have ih := findSelectionOverride_eq_head config rest
    simp only [findSelectionOverride]
    cases hfind : config.properties.find? (fun p => p.id == sel.propertyId) with
    | none =>
      have hov : selectionOverride config sel = none := by
        simp [selectionOverride, hfind]
      rw [List.filterMap_cons, hov]; exact ih
    | some prop =>
      by_cases ht : (prop.type == PropertyType.dropdown) = true
      · cases hop : prop.optionPrices with
        | none =>
          have hov : selectionOverride config sel = none := by
            simp [selectionOverride, hfind, ht, hop]
          rw [List.filterMap_cons, hov]
          simp only [ht, if_true, hop]
          exact ih
        | some prices =>
          cases hlk : prices.lookup sel.value with
          | none =>
            have hov : selectionOverride config sel = none := by
              simp [selectionOverride, hfind, ht, hop, hlk]
            rw [List.filterMap_cons, hov]
            simp only [ht, if_true, hop, hlk]
            exact ih
          | some price =>
            have hov : selectionOverride config sel = some price := by
              simp [selectionOverride, hfind, ht, hop, hlk]
            rw [List.filterMap_cons, hov]
            simp only [ht, if_true, hop, hlk]
            rfl
      · have ht' : (prop.type == PropertyType.dropdown) = false := by
          simpa using ht
        have hov : selectionOverride config sel = none := by
          simp [selectionOverride, hfind, ht']
        rw [List.filterMap_cons, hov]
        simp only [ht', if_false]
        exact ih

/-- C1 (corrected): `getEffectivePrice` iterates the line's *selections*
in their stored order — for the first selection whose property resolves
to a dropdown whose `optionPrices` defines the chosen value, that
override price is returned; with no selections, no config, or no
matching override the base price is returned.  This is the
selection-order reading, proved equal to the source function. -/
theorem getEffectivePrice_selection_order (item : CartItem) :
    getEffectivePrice item = effectivePriceSelectionOrder item := by
  unfold getEffectivePrice effectivePriceSelectionOrder
  cases item.customSelections with
  | none => rfl
  | some sels =>
    by_cases hs : sels.isEmpty
    · simp [hs]
    · cases item.product.custom_properties with
      | none => simp [hs]
      | some config =>
        simp only [hs, if_false]
        rw [findSelectionOverride_eq_head]
        cases (sels.filterMap (selectionOverride config)).head? <;> rfl

/-- C1 counterexample: on a line whose selections list the color dropdown
before the size dropdown, the source returns the *selection-order*
override (40, color), while the claim's definition-order iteration gives
32 (size, the first dropdown in the config). -/
theorem getEffectivePrice_not_definition_order :
    getEffectivePrice crossItem = 40 ∧
      effectivePriceDefinitionOrder crossItem = 32 ∧ (40 : ℚ) ≠ 32 := by
  refine ⟨by decide, by decide, by norm_num⟩

/-! ## Claim C5 — price range from overrides -/

theorem foldl_min_mem {α : Type} [LinearOrder α] :
    ∀ (ps : List α) (p : α), ps.foldl min p ∈ p :: ps
  | [], _ => List.mem_singleton.mpr rfl
  | q :: qs, p => by
    rw [List.foldl_cons]
    rcases List.mem_cons.mp (foldl_min_mem qs (min p q)) with h | h
    · rw [h]
      rcases min_choice p q with hm | hm <;> rw [hm]
      · exact List.mem_cons_self _ _
      · exact List.mem_cons.mpr (Or.inr (List.mem_cons_self _ _))
    · exact List.mem_cons.mpr (Or.inr (List.mem_cons.mpr (Or.inr h)))

theorem foldl_min_le {α : Type} [LinearOrder α] :
    ∀ (ps : List α) (p x : α), x ∈ p :: ps → ps.foldl min p ≤ x
  | [], _, x, hx => le_of_eq (List.mem_singleton.mp hx).symm
  | q :: qs, p, x, hx => by
    rw [List.foldl_cons]
    have hself : qs.foldl min (min p q) ≤ min p q :=
      foldl_min_le qs (min p q) (min p q) (List.mem_cons_self _ _)
    rcases List.mem_cons.mp hx with rfl | h
    · exact hself.trans (min_le_left _ _)
    · rcases List.mem_cons.mp h with rfl | h'
      · exact hself.trans (min_le_right _ _)
      · exact foldl_min_le qs (min p q) x (List.mem_cons.mpr (Or.inr h'))

theorem foldl_max_mem {α : Type} [LinearOrder α] :
    ∀ (ps : List α) (p : α), ps.foldl max p ∈ p :: ps
  | [], _ => List.mem_singleton.mpr rfl
  | q :: qs, p => by
    rw [List.foldl_cons]
    rcases List.mem_cons.mp (foldl_max_mem qs (max p q)) with h | h
    · rw [h]
      rcases max_choice p q with hm | hm <;> rw [hm]
      · exact List.mem_cons_self _ _
      · exact List.mem_cons.mpr (Or.inr (List.mem_cons_self _ _))
    · exact List.mem_cons.mpr (Or.inr (List.mem_cons.mpr (Or.inr h)))

theorem foldl_max_ge {α : Type} [LinearOrder α] :
    ∀ (ps : List α) (p x : α), x ∈ p :: ps → x ≤ ps.foldl max p
  | [], _, x, hx => le_of_eq (List.mem_singleton.mp hx)
  | q :: qs, p, x, hx => by
    rw [List.foldl_cons]
    have hself : max p q ≤ qs.foldl max (max p q) :=
      foldl_max_ge qs (max p q) (max p q) (List.mem_cons_self _ _)
    rcases List.mem_cons.mp hx with rfl | h
    · exact (le_max_left _ _).trans hself
    · rcases List.mem_cons.mp h with rfl | h'
      · exact (le_max_right _ _).trans hself
      · exact foldl_max_ge qs (max p q) x (List.mem_cons.mpr (Or.inr h'))

/-- C5 (confirmed): with no config, or a config in which no dropdown
property defines any override price, `getProductPriceRange` returns
`{min: basePrice, max: basePriceMax ?? basePrice}`; once any override
price exists the result's min and max are the least and greatest
elements of the collected override prices, and the result is entirely
independent of `basePrice` and `basePriceMax`. -/
theorem getProductPriceRange_spec (cfg : CustomPropertiesConfig)
    (b b' : ℚ) (bmax bmax' : Option ℚ) :
    getProductPriceRange none b bmax = (b, bmax.getD b) ∧
    (collectOptionPrices cfg = [] →
      getProductPriceRange (some cfg) b bmax = (b, bmax.getD b)) ∧
    (collectOptionPrices cfg ≠ [] →
      (getProductPriceRange (some cfg) b bmax).1 ∈ collectOptionPrices cfg ∧
      (∀ x ∈ collectOptionPrices cfg, (getProductPriceRange (some cfg) b bmax).1 ≤ x) ∧
      (getProductPriceRange (some cfg) b bmax).2 ∈ collectOptionPrices cfg ∧
      (∀ x ∈ collectOptionPrices cfg, x ≤ (getProductPriceRange (some cfg) b bmax).2) ∧
      getProductPriceRange (some cfg) b bmax = getProductPriceRange (some cfg) b' bmax') := by
  refine ⟨rfl, ?_, ?_⟩
  · intro h
    simp only [getProductPriceRange, h]
  · intro h
    cases hc : collectOptionPrices cfg with
    | nil => exact absurd hc h
    | cons p ps =>
      have hrange : getProductPriceRange (some cfg) b bmax = (ps.foldl min p, ps.foldl max p) := by
        simp only [getProductPriceRange, hc]
      have hrange' : getProductPriceRange (some cfg) b' bmax' = (ps.foldl min p, ps.foldl max p) := by
        simp only [getProductPriceRange, hc]
      simp only [hrange, hrange', hc]
      exact ⟨foldl_min_mem ps p, fun x hx => foldl_min_le ps p x hx,
        foldl_max_mem ps p, fun x hx => foldl_max_ge ps p x hx, trivial⟩

/-- Witness for C5 at the spec's own example: the size dropdown with
overrides 24/28/32 and base price 20 gives the range (24, 32), with both
bounds drawn from the override set and the base price ignored. -/
theorem getProductPriceRange_spec_witness :
    getProductPriceRange (some sizeConfig) 20 none = (24, 32) ∧
    (getProductPriceRange (some sizeConfig) 20 none).1 ∈ collectOptionPrices sizeConfig ∧
    getProductPriceRange (some sizeConfig) 20 none = getProductPriceRange (some sizeConfig) 99 (some 7) := by
  have h := (getProductPriceRange_spec sizeConfig 20 99 none (some 7)).2.2 (by decide)
  exact ⟨by decide, h.1, h.2.2.2.2⟩

/-! ## Claim C10 — frame effect of unmatched identifiers -/

/-- C10 (confirmed): an identifier matching no line id and no product id
leaves `removeItem` and positive-quantity `updateQuantity` results
unchanged, and an unknown line id leaves `updateCustomSelections`
unchanged; all three are total functions, so no error is signalled. -/
theorem cart_ops_unmatched_id_frame (items : List CartItem) (x : String) (q : ℤ)
    (sels : List CustomPropertySelection)
    (h : ∀ item ∈ items, item.id ≠ x ∧ item.product.id ≠ x) :
    removeItem items x = items ∧
    (0 < q → updateQuantity items x q = items) ∧
    updateCustomSelections items x sels = items := by
  have hid : ∀ item ∈ items, (item.id == x) = false := fun item hm =>
    beq_eq_false_iff_ne.mpr (h item hm).1
  have hpid : ∀ item ∈ items, (item.product.id == x) = false := fun item hm =>
    beq_eq_false_iff_ne.mpr (h item hm).2
  refine ⟨?_, ?_, ?_⟩
  · exact List.filter_eq_self.mpr (fun item hm => by
      simp [hid item hm, hpid item hm])
  · intro hq
    have hnle : ¬ q ≤ 0 := not_le.mpr hq
    unfold updateQuantity
    rw [if_neg hnle]
    have hcongr := List.map_congr_left (l := items)
      (f := fun item => if item.id == x || item.product.id == x then
        { item with quantity := q } else item) (g := id)
      (fun item hm => by simp [hid item hm, hpid item hm])
    rw [hcongr, List.map_id]
  · unfold updateCustomSelections
    have hcongr := List.map_congr_left (l := items)
      (f := fun item => if item.id == x then
        { item with customSelections := some sels } else item) (g := id)
      (fun item hm => by simp [hid item hm])
    rw [hcongr, List.map_id]

/-- Witness for C10 on a concrete one-line cart and the identifier
`"missing-id"`, which matches nothing. -/
theorem cart_ops_unmatched_id_frame_witness :
    removeItem [sampleLine] "missing-id" = [sampleLine] ∧
    updateQuantity [sampleLine] "missing-id" 3 = [sampleLine] ∧
    updateCustomSelections [sampleLine] "missing-id" [selPA] = [sampleLine] := by
  have h := cart_ops_unmatched_id_frame [sampleLine] "missing-id" 3 [selPA] (by decide)
  exact ⟨h.1, h.2.1 (by norm_num), h.2.2⟩

/-! ## Claim C9 — checkout-time validation aborts order creation -/

/-- C9 (confirmed): when some cart line references a product that no
longer resolves or is flagged unavailable, `createOrder` fails with a
user-facing error and issues no backend call at all — in particular
neither the order-creation nor the payment-creation call happens, so the
backend is untouched by the failed attempt. -/
theorem createOrder_invalid_cart_aborts (resolve : String → Option Product)
    (env : OrderEnv) (cartItems : List CartItem) (paymentId : Option String)
    (h : ∃ item ∈ cartItems, resolve item.product.id = none ∨
      ∃ p, resolve item.product.id = some p ∧ p.is_available = some false) :
    (∃ msg, (createOrder resolve env cartItems paymentId).1 = Except.error msg) ∧
    (createOrder resolve env cartItems paymentId).2 = [] := by
  obtain ⟨item, hmem, hbad⟩ := h
  have hpred : (match resolve item.product.id with
      | none => true
      | some p => p.is_available == some false) = true := by
    rcases hbad with hnone | ⟨p, hp, hun⟩
    · rw [hnone]
    · rw [hp]
      simpa using hun
  have hfilter : item ∈ cartItems.filter (fun item =>
      match resolve item.product.id with
      | none => true
      | some p => p.is_available == some false) :=
    List.mem_filter.mpr ⟨hmem, hpred⟩
  have hne : (cartItems.filter (fun item =>
      match resolve item.product.id with
      | none => true
      | some p => p.is_available == some false)).isEmpty = false := by
    rcases hl : cartItems.filter (fun item =>
      match resolve item.product.id with
      | none => true
      | some p => p.is_available == some false) with _ | ⟨a, l⟩
    · rw [hl] at hfilter; cases hfilter
    · rw [hl]; rfl
  have hvalid : (validateCartProducts resolve cartItems).valid = false := hne
  unfold createOrder
  simp only [hvalid, Bool.not_false, if_true]
  exact ⟨⟨_, rfl⟩, trivial⟩

/-- Witness for C9: a one-line cart whose product resolves to nothing;
the order fails and the backend call trace is empty. -/
theorem createOrder_invalid_cart_aborts_witness :
    (∃ msg, (createOrder (fun _ => none)
      ⟨Except.ok "order-1", fun _ => some "order-1"⟩ [sampleLine] (some "pay-1")).1 =
        Except.error msg) ∧
    (createOrder (fun _ => none)
      ⟨Except.ok "order-1", fun _ => some "order-1"⟩ [sampleLine] (some "pay-1")).2 = [] :=
  createOrder_invalid_cart_aborts (fun _ => none)
    ⟨Except.ok "order-1", fun _ => some "order-1"⟩ [sampleLine] (some "pay-1")
    ⟨sampleLine, List.mem_singleton.mpr rfl, Or.inl rfl⟩

/-! ## Claim C8 — clearCart and the durable entry -/

/-- C8 counterexample: starting from a one-line cart that has finished
loading, `clearCart` followed by the persistence effect it triggers
leaves the durable medium holding an empty-array value under the cart
key, not a missing key as the claim requires. -/
theorem clearCart_storage_not_removed :
    (clearCartAndPersist ⟨[sampleLine], some [sampleLine], false⟩).storage =
      some ([] : List CartItem) ∧
    some ([] : List CartItem) ≠ (none : Option (List CartItem)) := by
  exact ⟨rfl, by simp⟩

/-- C8 (corrected): `clearCart` itself empties the line list and removes
the durable entry, but the persistence effect triggered by the `items`
change then re-serializes the now-empty list, so once persistence has
run the durable medium holds an empty-array value under the cart key. -/
theorem clearCart_then_persist (st : CartState) (h : st.isLoading = false) :
    (clearCart st).items = [] ∧ (clearCart st).storage = none ∧
    (clearCartAndPersist st).items = [] ∧
    (clearCartAndPersist st).storage = some [] := by
  refine ⟨rfl, rfl, ?_, ?_⟩ <;>
    simp [clearCartAndPersist, persistEffect, clearCart, h]

/-- Witness for C8 on a loaded one-line cart. -/
theorem clearCart_then_persist_witness :
    (clearCart ⟨[sampleLine], some [sampleLine], false⟩).storage = none ∧
    (clearCartAndPersist ⟨[sampleLine], some [sampleLine], false⟩).storage = some [] := by
  have h := clearCart_then_persist ⟨[sampleLine], some [sampleLine], false⟩ rfl
  exact ⟨h.2.1, h.2.2.2⟩

/-! ## Claim C7 — corrupted durable storage at load time -/

/-- C7 counterexample: durable content `{}` — valid JSON that is not a
list — loads as an empty cart without an exception, but the corrupted
durable entry is *not* removed: removal happens only in the catch block,
which only a parse failure reaches. -/
theorem load_nonlist_entry_not_removed :
    (loadAndValidateCart (some (Except.ok Json.obj)) (fun _ => true) id).items = [] ∧
    (loadAndValidateCart (some (Except.ok Json.obj)) (fun _ => true) id).storage =
      some (Except.ok Json.obj) ∧
    some (Except.ok Json.obj) ≠ (none : Option (Except Unit Json)) :=
  ⟨rfl, rfl, fun h => Option.noConfusion h⟩

/-- C7 (corrected): any invalid durable content yields an empty
in-memory cart and no exception, but the corrupted entry is removed only
when `JSON.parse` throws; content that parses to a non-list JSON value
is left in place by the loader. -/
theorem load_invalid_content (validOk : List Json → Bool)
    (validItems : List Json → List Json) (j : Json)
    (hj : ∀ elems, j ≠ Json.arr elems) :
    loadAndValidateCart (some (Except.error ())) validOk validItems =
      { items := [], storage := none } ∧
    (loadAndValidateCart (some (Except.ok j)) validOk validItems).items = [] ∧
    (loadAndValidateCart (some (Except.ok j)) validOk validItems).storage =
      some (Except.ok j) := by
  refine ⟨rfl, ?_⟩
  cases j with
  | arr elems => exact absurd rfl (hj elems)
  | obj => exact ⟨rfl, rfl⟩
  | str s => exact ⟨rfl, rfl⟩
  | num n => exact ⟨rfl, rfl⟩
  | bool b => exact ⟨rfl, rfl⟩
  | null => exact ⟨rfl, rfl⟩

/-- Witness for C7 with the non-list value `42` and a parse failure. -/
theorem load_invalid_content_witness :
    loadAndValidateCart (some (Except.error ())) (fun _ => true) id =
      { items := [], storage := none } ∧
    (loadAndValidateCart (some (Except.ok (Json.num 42))) (fun _ => true) id).items = [] := by
  have h := load_invalid_content (fun _ => true) id (Json.num 42)
    (fun _ helems => Json.noConfusion helems)
  exact ⟨h.1, h.2.1⟩

/-! ## Claims C2, C3, C6 — cache layer behavior -/

/-- A binding that survives a filter is still the first binding for its
key afterwards. -/
theorem lookup_filter_of_pred {α β : Type} [BEq α] [LawfulBEq α]
    (p : α × β → Bool) :
    ∀ (l : List (α × β)) (key : α) (e : β),
      l.lookup key = some e → p (key, e) = true → (l.filter p).lookup key = some e
  | [], _, _, hlk, _ => by cases hlk
  | (k, v) :: rest, key, e, hlk, hp => by
    by_cases hkey : (key == k) = true
    · have hkeq : key = k := eq_of_beq hkey
      have hv : v = e := by
        simpa [List.lookup, hkey] using hlk
      subst hkeq; subst hv
      rw [List.filter_cons, if_pos hp]
      simp [List.lookup]
    · have hkey' : (key == k) = false := by simpa using hkey
      have hrest : rest.lookup key = some e := by
        simpa [List.lookup, hkey'] using hlk
      have ih := lookup_filter_of_pred p rest key e hrest hp
      rw [List.filter_cons]
      by_cases hpk : p (k, v) = true
      · rw [if_pos hpk]
        simpa [List.lookup, hkey'] using ih
      · rw [if_neg hpk]
        exact ih

/-- A fresh memory entry is served as-is by `getFromCache`. -/
theorem getFromCache_fresh {α : Type} (st : DSState α) (key : String)
    (entry : CacheEntry α) (hlk : st.cache.lookup key = some entry)
    (hfresh : st.now ≤ entry.timestamp + entry.ttl) :
    getFromCache st key = (some entry.data, cleanCache st) := by
  have hkeep : (fun kv : String × CacheEntry α =>
      !(st.now > kv.2.timestamp + kv.2.ttl)) (key, entry) = true := by
    simp only [Bool.not_eq_true', decide_eq_false_iff_not]
    exact not_lt.mpr hfresh
  have h1 : (cleanCache st).cache.lookup key = some entry :=
    lookup_filter_of_pred _ st.cache key entry hlk hkeep
  simp only [getFromCache, h1]
  have hfresh' : (cleanCache st).now ≤ entry.timestamp + entry.ttl := hfresh
  rw [if_pos hfresh']

/-- C2 counterexample: even with a perfectly fresh cached product-list
entry (inserted at time 0 with ttl 1,800,000 ms, read at time 1,000),
`getProductList` issues a backend fetch — the source bypasses the cache
for product-list reads ("Direct call to Supabase without caching"). -/
theorem productList_fetches_despite_fresh_cache :
    (DSState.mk [("products_list_All__50_0",
        CacheEntry.mk [sampleProduct] 0 1800000)]
      [("products_list_All__50_0", CacheEntry.mk [sampleProduct] 0 1800000)]
      1000).now ≤ 0 + 1800000 ∧
    (getProductList
      (DSState.mk [("products_list_All__50_0",
          CacheEntry.mk [sampleProduct] 0 1800000)]
        [("products_list_All__50_0", CacheEntry.mk [sampleProduct] 0 1800000)]
        1000) (Except.ok [sampleProduct])).backendCalls = 1 ∧
    (1 : ℕ) ≠ 0 := by
  refine ⟨by norm_num, rfl, by norm_num⟩

/-- C2 (corrected): detail reads serve a fresh memory entry
(`now ≤ timestamp + ttl`) with no backend call; when `getFromCache`
yields nothing — in particular for entries past their ttl, which
`cleanCache` drops, stale-grace window included — the read performs one
synchronous backend fetch whose outcome is the caller's result; and
product-list reads always perform exactly one backend fetch, whatever
the cache holds.  No read path schedules a background refresh — the
source's `getStaleData` / `refreshProductList` helpers are uncalled. -/
theorem cache_read_behavior (st : DSState Product) (pid : String)
    (backend : Except String Product) (entry : CacheEntry Product) :
    (st.cache.lookup ("product_detail_" ++ pid) = some entry →
      st.now ≤ entry.timestamp + entry.ttl →
      getProductDetails st pid backend =
        { result := Except.ok entry.data, state := cleanCache st, backendCalls := 0 }) ∧
    ((getFromCache st ("product_detail_" ++ pid)).1 = none →
      (getProductDetails st pid backend).backendCalls = 1 ∧
      (getProductDetails st pid backend).result = backend) ∧
    (∀ (stl : DSState (List Product)) (b : Except String (List Product)),
      (getProductList stl b).backendCalls = 1) := by
  refine ⟨?_, ?_, fun _ _ => rfl⟩
  · intro hlk hfresh
    have hg := getFromCache_fresh st ("product_detail_" ++ pid) entry hlk hfresh
    simp only [getProductDetails, hg]
  · intro hnone
    simp only [getProductDetails]
    cases hgf : getFromCache st ("product_detail_" ++ pid) with
    | mk fst snd =>
      rw [hgf] at hnone
      subst hnone
      cases backend <;> exact ⟨rfl, rfl⟩

/-- Witness for C2: a fresh detail entry is served without a fetch, and
a cold-cache detail read issues exactly one synchronous fetch. -/
theorem cache_read_behavior_witness :
    getProductDetails
        (DSState.mk [("product_detail_prod-1", CacheEntry.mk sampleProduct 0 1000)] [] 500)
        "prod-1" (Except.error "down") =
      { result := Except.ok sampleProduct,
        state := cleanCache
          (DSState.mk [("product_detail_prod-1", CacheEntry.mk sampleProduct 0 1000)] [] 500),
        backendCalls := 0 } ∧
    (getProductDetails (DSState.mk [] [] 0) "prod-2" (Except.ok sampleProduct)).backendCalls = 1 := by
  have h1 := (cache_read_behavior
    (DSState.mk [("product_detail_prod-1", CacheEntry.mk sampleProduct 0 1000)] [] 500)
    "prod-1" (Except.error "down") (CacheEntry.mk sampleProduct 0 1000)).1
    (by decide) (by decide)
  have h2 := (cache_read_behavior (DSState.mk [] [] 0) "prod-2" (Except.ok sampleProduct)
    (CacheEntry.mk sampleProduct 0 0)).2.1 (by decide)
  exact ⟨h1, h2.1⟩

/-- C3: under the schedule where two concurrent detail reads for the
same cold key both pass their cache check before either response
arrives, the source issues two backend calls (both callers still
receive the same resolved value).  `pendingFetches` is declared with a
dedupe comment but never consulted. -/
theorem concurrent_reads_not_deduplicated :
    (twoConcurrentDetailReads (DSState.mk [] [] 0) "prod-1" (Except.ok sampleProduct)).2.2 = 2 ∧
    (twoConcurrentDetailReads (DSState.mk [] [] 0) "prod-1" (Except.ok sampleProduct)).1.1 =
      Except.ok sampleProduct ∧
    (twoConcurrentDetailReads (DSState.mk [] [] 0) "prod-1" (Except.ok sampleProduct)).1.2 =
      Except.ok sampleProduct := by
  refine ⟨rfl, rfl, rfl⟩

/-- C6 counterexample: with an empty cache (no cached value, not even a
stale one) and a failing backend, `getCategories` resolves successfully
with an empty list instead of propagating the failure. -/
theorem getCategories_swallows_error :
    (getCategories (DSState.mk [] [] 0) (Except.error "network down")).result =
      Except.ok [] ∧
    (Except.ok ([] : List String) : Except String (List String)) ≠
      Except.error "network down" :=
  ⟨rfl, fun h => Except.noConfusion h⟩

/-- C6 (corrected): a detail read propagates a fetch failure even when a
stale-but-usable value sits in the cache (the stale value is never
served on failure), and `getCategories` swallows every fetch failure,
returning an empty list instead of rejecting. -/
theorem fetch_failure_semantics (st : DSState Product) (pid : String)
    (e : String) (v : Product)
    (hmiss : (getFromCache st ("product_detail_" ++ pid)).1 = none)
    (_hstale : getStaleData st ("product_detail_" ++ pid) = some v) :
    (getProductDetails st pid (Except.error e)).result = Except.error e ∧
    ∀ (stc : DSState (List String)) (msg : String),
      (getCategories stc (Except.error msg)).result = Except.ok [] := by
  refine ⟨?_, fun _ _ => rfl⟩
  simp only [getProductDetails]
  cases hgf : getFromCache st ("product_detail_" ++ pid) with
  | mk fst snd =>
    rw [hgf] at hmiss
    subst hmiss
    rfl

/-- Witness for C6: an expired-but-within-grace entry (age 100 against
ttl 10) exists, yet the failing detail read rejects with the error. -/
theorem fetch_failure_semantics_witness :
    (getProductDetails
        (DSState.mk [("product_detail_prod-1", CacheEntry.mk sampleProduct 0 10)] [] 100)
        "prod-1" (Except.error "down")).result = Except.error "down" ∧
    (getCategories (DSState.mk [] [] 7) (Except.error "down")).result = Except.ok [] := by
  have h := fetch_failure_semantics
    (DSState.mk [("product_detail_prod-1", CacheEntry.mk sampleProduct 0 10)] [] 100)
    "prod-1" "down" sampleProduct (by decide) (by decide)
  exact ⟨h.1, h.2 (DSState.mk [] [] 7) "down"⟩

/-! ## Claim C4 — merge-on-equivalent-selections in addItem -/

/-- Selection-set equivalence as the claim words it: both sides hold the
same (propertyId, value) pairs, order-insensitively; absent and empty
selection lists both denote the empty set. -/
def selSetEquiv (s s' : Option (List CustomPropertySelection)) : Prop :=
  (∀ x ∈ s.getD [], x ∈ s'.getD []) ∧ (∀ x ∈ s'.getD [], x ∈ s.getD [])

/-- The amended equivalence: set equivalence plus equal list length —
for duplicate-free selection lists this is exactly being a permutation. -/
def selEquivLen (s s' : Option (List CustomPropertySelection)) : Prop :=
  selSetEquiv s s' ∧ (s.getD []).length = (s'.getD []).length

/-- The product-and-selection combination identifying a merge target. -/
def lineKey (item : CartItem) : String × Option (List CustomPropertySelection) :=
  (item.product.id, item.customSelections)

/-- No two cart lines share a product id together with `selEquivLen`
selection lists. -/
def NoDuplicateLines (items : List CartItem) : Prop :=
  (items.map lineKey).Pairwise (fun k k' => ¬ (k.1 = k'.1 ∧ selEquivLen k.2 k'.2))

instance (s s' : Option (List CustomPropertySelection)) :
    Decidable (selSetEquiv s s') := by
  unfold selSetEquiv; infer_instance

instance (s s' : Option (List CustomPropertySelection)) :
    Decidable (selEquivLen s s') := by
  unfold selEquivLen; infer_instance

instance (items : List CartItem) : Decidable (NoDuplicateLines items) := by
  unfold NoDuplicateLines; exact List.instDecidablePairwise _

theorem mergeFirst_eq_none_of (p : CartItem → Bool) (q : ℤ) :
    ∀ l : List CartItem, (∀ x ∈ l, p x = false) → mergeFirst p q l = none
  | [], _ => rfl
  | item :: rest, h => by
    have h0 : p item = false := h item (List.mem_cons_self _ _)
    have ih := mergeFirst_eq_none_of p q rest
      (fun x hx => h x (List.mem_cons.mpr (Or.inr hx)))
    simp [mergeFirst, h0, ih]

theorem pred_false_of_mergeFirst_none (p : CartItem → Bool) (q : ℤ) :
    ∀ l : List CartItem, mergeFirst p q l = none → ∀ x ∈ l, p x = false
  | [], _, x, hx => absurd hx (List.not_mem_nil x)
  | item :: rest, h, x, hx => by
    rw [mergeFirst] at h
    by_cases hp : p item = true
    · rw [if_pos hp] at h; cases h
    · have hp' : p item = false := by simpa using hp
      rw [if_neg hp] at h
      rcases List.mem_cons.mp hx with rfl | hx'
      · exact hp'
      · have hrest : mergeFirst p q rest = none := by
          cases hmr : mergeFirst p q rest with
          | none => rfl
          | some l'' => rw [hmr] at h; cases h
        exact pred_false_of_mergeFirst_none p q rest hrest x hx'

/-- A merge changes one quantity only, so the product-and-selection keys
of the cart are untouched. -/
theorem mergeFirst_map_lineKey (p : CartItem → Bool) (q : ℤ) :
    ∀ (l l' : List CartItem), mergeFirst p q l = some l' →
      l'.map lineKey = l.map lineKey
  | [], _, h => by cases h
  | item :: rest, l', h => by
    rw [mergeFirst] at h
    by_cases hp : p item = true
    · rw [if_pos hp] at h
      injection h with h'
      subst h'
      simp [List.map_cons, lineKey]
    · rw [if_neg hp] at h
      cases hmr : mergeFirst p q rest with
      | none => rw [hmr] at h; cases h
      | some l'' =>
        rw [hmr] at h
        injection h with h'
        subst h'
        simp only [List.map_cons, Option.map_some']
        rw [mergeFirst_map_lineKey p q rest l'' hmr]

theorem noSelections_iff (s : Option (List CustomPropertySelection)) :
    noSelections s = true ↔ s.getD [] = [] := by
  cases s with
  | none => simp [noSelections]
  | some l => simp [noSelections, List.isEmpty_iff]

/-- The amended equivalence implies the source's comparison accepts. -/
theorem selEquivLen_compatible (s s' : Option (List CustomPropertySelection))
    (h : selEquivLen s s') : selectionsCompatible s s' = true := by
  obtain ⟨⟨_, hsub'⟩, hlen⟩ := h
  unfold selectionsCompatible
  by_cases hns : noSelections s' = true
  · rw [if_pos hns]
    have h0 : (s'.getD []).length = 0 := by
      rw [(noSelections_iff s').mp hns]; rfl
    have h0' : (s.getD []).length = 0 := by rw [hlen, h0]
    exact (noSelections_iff s).mpr (List.length_eq_zero.mp h0')
  · rw [if_neg hns]
    have hne' : s'.getD [] ≠ [] := fun hcon =>
      hns ((noSelections_iff s').mpr hcon)
    cases hs' : s' with
    | none => exact absurd (by rw [hs']; rfl) hne'
    | some ns =>
      have hnsne : ns ≠ [] := by rw [hs'] at hne'; exact hne'
      cases hs : s with
      | none =>
        exfalso
        rw [hs, hs'] at hlen
        exact hnsne (List.length_eq_zero.mp hlen.symm)
      | some is =>
        rw [hs, hs'] at hlen
        simp only [Option.getD_some] at hlen
        rw [Bool.and_eq_true]
        constructor
        · exact beq_iff_eq.mpr hlen
        · rw [List.all_eq_true]
          intro sel hsel
          have hmem : sel ∈ is := by
            have := hsub' sel
            rw [hs, hs'] at this
            exact this hsel
          rw [List.any_eq_true]
          exact ⟨sel, hmem, by simp⟩

theorem mergeFirst_append_single (p : CartItem → Bool) (q : ℤ)
    (x₀ : CartItem) (hx : p x₀ = true) :
    ∀ l : List CartItem, (∀ x ∈ l, p x = false) →
      mergeFirst p q (l ++ [x₀]) =
        some (l ++ [{ x₀ with quantity := x₀.quantity + q }])
  | [], _ => by simp [mergeFirst, hx]
  | item :: rest, h => by
    have h0 : p item = false := h item (List.mem_cons_self _ _)
    have ih := mergeFirst_append_single p q x₀ hx rest
      (fun x hxm => h x (List.mem_cons.mpr (Or.inr hxm)))
    simp [mergeFirst, h0, ih]

/-- C4 counterexample: the selection lists `[wrap↦gift]` and
`[wrap↦gift, wrap↦gift]` are selection-set-equivalent in the claim's
sense, yet re-adding the product with the duplicated list fails the
source's length comparison and yields a second line — two
selection-equivalent lines for the same product. -/
theorem addItem_duplicate_selection_counterexample :
    selSetEquiv (some [selPA]) (some [selPA, selPA]) ∧
    (addItem (addItem [] customProduct 1 (some [selPA]) "id-1")
        customProduct 1 (some [selPA, selPA]) "id-2").length = 2 := by
  exact ⟨by decide, rfl⟩

/-- C4 (corrected): with the equivalence strengthened to require equal
list lengths alongside set equality (a permutation, for duplicate-free
lists), both halves hold: adding quantity `a` with `s` and then `b` with
`s'` to a cart holding no line for the product yields exactly the old
cart plus one line of quantity `a+b`, and `addItem` never creates a
second line whose product and selections are `selEquivLen`-equivalent to
an existing one's. -/
theorem addItem_merge_and_uniqueness (items : List CartItem) (product : Product)
    (a b : ℤ) (s s' : Option (List CustomPropertySelection)) (id1 id2 : String)
    (hfresh : ∀ item ∈ items, item.product.id ≠ product.id)
    (hequiv : selEquivLen s s') :
    addItem (addItem items product a s id1) product b s' id2 =
      items ++ [{ id := id1, product := product, quantity := a + b,
                  customSelections := s }] ∧
    (∀ (items₂ : List CartItem) (p₂ : Product) (q : ℤ)
        (sels : Option (List CustomPropertySelection)) (nid : String),
      NoDuplicateLines items₂ → NoDuplicateLines (addItem items₂ p₂ q sels nid)) := by
  constructor
  · have hpred1 : ∀ x ∈ items, addItemMatches product s x = false := fun x hx => by
      simp [addItemMatches, beq_eq_false_iff_ne.mpr (hfresh x hx)]
    have hnone1 : mergeFirst (addItemMatches product s) a items = none :=
      mergeFirst_eq_none_of _ _ items hpred1
    have hstep1 : addItem items product a s id1 =
        items ++ [{ id := id1, product := product, quantity := a,
                    customSelections := s }] := by
      unfold addItem
      rw [hnone1]
    have hpred2 : ∀ x ∈ items, addItemMatches product s' x = false := fun x hx => by
      simp [addItemMatches, beq_eq_false_iff_ne.mpr (hfresh x hx)]
    have hmatch : addItemMatches product s'
        { id := id1, product := product, quantity := a, customSelections := s } = true := by
      simp [addItemMatches, selEquivLen_compatible s s' hequiv]
    have hmerge := mergeFirst_append_single (addItemMatches product s') b
      { id := id1, product := product, quantity := a, customSelections := s }
      hmatch items hpred2
    rw [hstep1]
    unfold addItem
    rw [hmerge]
  · intro items₂ p₂ q sels nid hnd
    unfold addItem
    cases hm : mergeFirst (addItemMatches p₂ sels) q items₂ with
    | some updated =>
      unfold NoDuplicateLines at hnd ⊢
      rw [mergeFirst_map_lineKey _ _ items₂ updated hm]
      exact hnd
    | none =>
      unfold NoDuplicateLines at hnd ⊢
      rw [List.map_append, List.pairwise_append]
      refine ⟨hnd, List.pairwise_singleton _ _, ?_⟩
      intro k hk k' hk'
      simp only [List.map_cons, List.map_nil, List.mem_singleton] at hk'
      subst hk'
      rcases List.mem_map.mp hk with ⟨x, hxmem, rfl⟩
      rintro ⟨hpid, hsels⟩
      have hfalse := pred_false_of_mergeFirst_none _ _ items₂ hm x hxmem
      have htrue : addItemMatches p₂ sels x = true := by
        simp only [addItemMatches, lineKey] at hpid hsels ⊢
        rw [Bool.and_eq_true]
        exact ⟨beq_iff_eq.mpr hpid, selEquivLen_compatible _ _ hsels⟩
      rw [hfalse] at htrue
      cases htrue

/-- Witness for C4: merging quantity 2 then 3 of the customized product
under reordered (permuted) selection lists leaves one line of quantity
5, and duplicate-free carts stay duplicate-free. -/
theorem addItem_merge_and_uniqueness_witness :
    addItem (addItem [] customProduct 2
        (some [⟨"size", "Large"⟩, ⟨"color", "Red"⟩]) "id-1")
      customProduct 3 (some [⟨"color", "Red"⟩, ⟨"size", "Large"⟩]) "id-2" =
      [{ id := "id-1", product := customProduct, quantity := 5,
         customSelections := some [⟨"size", "Large"⟩, ⟨"color", "Red"⟩] }] ∧
    NoDuplicateLines (addItem [sampleLine] customProduct 1 (some [selPA]) "id-3") := by
  have h := addItem_merge_and_uniqueness [] customProduct 2 3
    (some [⟨"size", "Large"⟩, ⟨"color", "Red"⟩])
    (some [⟨"color", "Red"⟩, ⟨"size", "Large"⟩]) "id-1" "id-2"
    (fun item hm => absurd hm (List.not_mem_nil item))
    (by decide)
  refine ⟨by simpa using h.1, ?_⟩
  exact h.2 [sampleLine] customProduct 1 (some [selPA]) "id-3" (by decide)

end WoolWitch
